import Mathlib

set_option maxRecDepth 8000

/-! Shallow embedding of the asset reference rewriting and publish pipeline of
the webpack-upload-plugin repository (source files src/unnamed/part_001 and
src/unnamed/part_000).  The JavaScript regular expressions of the source are
embedded as a small abstract syntax tree `Reg` together with a fueled
backtracking matcher `mat` that follows the ECMAScript rules relevant here:
leftmost match, greedy `?` `*` `+`, lazy `+?`, capture groups, and the global
replacement discipline of String.prototype.replace with the g flag (scan from
the left, resume after the end of each match). -/

/-- Capture state of a regex match: group index paired with captured text,
most recently written first (a later write to the same group shadows the
earlier one, as lookup takes the first hit). -/
abbrev Caps := List (Nat × List Char)

/-- Abstract syntax of the JavaScript regular expressions used by the source. -/
inductive Reg where
  | eps : Reg
  | lit : Char → Reg
  | cls : (Char → Bool) → Reg
  | seq : Reg → Reg → Reg
  | opt : Reg → Reg
  | star : Reg → Reg
  | plusG : Reg → Reg
  | plusL : Reg → Reg
  | group : Nat → Reg → Reg

/-- Record a capture for group `n`. -/
def setCap (n : Nat) (v : List Char) (caps : Caps) : Caps := (n, v) :: caps

/-- Read a capture; `none` models a non-participating group (undefined in JS). -/
def capGet (caps : Caps) (n : Nat) : Option String :=
  (caps.find? (fun p => p.1 == n)).map (fun p => String.mk p.2)

/-- Fueled CPS backtracking matcher.  `mat fuel r s caps k` tries to match `r`
against a prefix of `s`; on success the continuation `k` receives the rest of
the input and the capture state.  Alternatives are ordered exactly as an
ECMAScript engine orders them: `opt`, `star`, `plusG` prefer consuming more
first, `plusL` prefers stopping first.  Fuel only bounds the recursion depth
and iteration count; all concrete evaluations in this file use ample fuel. -/
def mat : Nat → Reg → List Char → Caps →
    (List Char → Caps → Option (List Char × Caps)) → Option (List Char × Caps)
  | 0, _, _, _, _ => none
  | _ + 1, .eps, s, caps, k => k s caps
  | _ + 1, .lit c, s, caps, k =>
    match s with
    | [] => none
    | a :: s' => if a = c then k s' caps else none
  | _ + 1, .cls p, s, caps, k =>
    match s with
    | [] => none
    | a :: s' => if p a then k s' caps else none
  | fuel + 1, .seq r1 r2, s, caps, k =>
    mat fuel r1 s caps (fun s' c' => mat fuel r2 s' c' k)
  | fuel + 1, .opt r, s, caps, k =>
    (mat fuel r s caps k).orElse (fun _ => k s caps)
  | fuel + 1, .star r, s, caps, k =>
    (mat fuel r s caps (fun s' c' => mat fuel (.star r) s' c' k)).orElse
      (fun _ => k s caps)
  | fuel + 1, .plusG r, s, caps, k =>
    mat fuel r s caps (fun s' c' =>
      (mat fuel (.plusG r) s' c' k).orElse (fun _ => k s' c'))
  | fuel + 1, .plusL r, s, caps, k =>
    mat fuel r s caps (fun s' c' =>
      (k s' c').orElse (fun _ => mat fuel (.plusL r) s' c' k))
  | fuel + 1, .group n r, s, caps, k =>
    mat fuel r s caps (fun s' c' =>
      k s' (setCap n (s.take (s.length - s'.length)) c'))

deriving instance DecidableEq for Except

/-- Structural size of a regex, used to compute an ample fuel supply. -/
def regSize : Reg → Nat
  | .eps => 1
  | .lit _ => 1
  | .cls _ => 1
  | .seq a b => regSize a + regSize b + 1
  | .opt r => regSize r + 1
  | .star r => regSize r + 1
  | .plusG r => regSize r + 1
  | .plusL r => regSize r + 1
  | .group _ r => regSize r + 1

/-- Ample fuel for matching `r` against `s`: the matcher consumes at most one
unit of fuel per syntax layer plus one per quantifier iteration, and every
quantifier body in the regexes of this file consumes at least one character. -/
def matFuel (r : Reg) (s : List Char) : Nat := (s.length + 2) * (regSize r + 2)

/-- Try to match `r` at the start of `s`; returns (matched text, captures,
rest of the input). -/
def tryMatch (r : Reg) (s : List Char) : Option (List Char × Caps × List Char) :=
  match mat (matFuel r s) r s [] (fun rest caps => some (rest, caps)) with
  | none => none
  | some (rest, caps) => some (s.take (s.length - rest.length), caps, rest)

/-- A segment of a split text: either a run of unmatched characters or one
match together with its capture state. -/
abbrev Seg := (List Char) ⊕ (List Char × Caps)

/-- Merge a single unmatched character into a segment list. -/
def prependLit (c : Char) : List Seg → List Seg
  | Sum.inl cs :: rest => Sum.inl (c :: cs) :: rest
  | segs => Sum.inl [c] :: segs

/-- Split a text into unmatched runs and matches, scanning from the left and
resuming after each match, as String.prototype.replace with the g flag does
(an empty match is emitted and the scan advances one character). -/
def scanSplit : Nat → Reg → List Char → List Seg
  | 0, _, s => [Sum.inl s]
  | _ + 1, _, [] => []
  | fuel + 1, r, c :: rest =>
    match tryMatch r (c :: rest) with
    | none => prependLit c (scanSplit fuel r rest)
    | some (m, caps, rest') =>
      if m.isEmpty then Sum.inr (m, caps) :: prependLit c (scanSplit fuel r rest)
      else Sum.inr (m, caps) :: scanSplit fuel r rest'

/-- Render a segment list, applying the replacement callback to each match. -/
def renderSegs (f : String → Caps → String) : List Seg → List Char
  | [] => []
  | Sum.inl cs :: rest => cs ++ renderSegs f rest
  | Sum.inr (m, caps) :: rest => (f (String.mk m) caps).data ++ renderSegs f rest

/-- JavaScript text.replace(reg, f) with a global regex: every match is
replaced by the value of the callback. -/
def replaceAll (r : Reg) (f : String → Caps → String) (s : String) : String :=
  String.mk (renderSegs f (scanSplit (s.data.length + 1) r s.data))

/-- Whether a segment is an unmatched run. -/
def isInlSeg : Seg → Bool
  | Sum.inl _ => true
  | Sum.inr _ => false

/-- JavaScript reg.test(s): some match exists somewhere in `s`. -/
def regTest (r : Reg) (s : String) : Bool :=
  (scanSplit (s.data.length + 1) r s.data).any (fun seg => !(isInlSeg seg))

/-- No match of `r` exists anywhere in `s`. -/
def regNoMatch (r : Reg) (s : String) : Bool :=
  (scanSplit (s.data.length + 1) r s.data).all isInlSeg

/-- A regex matching the characters of `s` literally (the source escapes
them, or they contain no metacharacter). -/
def litStrReg (s : String) : Reg :=
  s.data.foldr (fun c acc => .seq (.lit c) acc) .eps

/-- The JavaScript regex metacharacter dot: any character except a line
terminator. -/
def jsDotAny : Reg := .cls (fun c => !(c == '\n' || c == '\r'))

/-- A regex built from raw text inserted into a pattern without escaping, as
generateLocalPathStr does with path segments: a dot in the text behaves as
the regex wildcard; the other characters occurring in the paths considered
here are not metacharacters and match literally. -/
def jsRawReg (s : String) : Reg :=
  s.data.foldr (fun c acc => .seq (if c == '.' then jsDotAny else .lit c) acc) .eps

/-- ECMAScript whitespace class backslash-s (the members relevant to ASCII text). -/
def isSpaceJS (c : Char) : Bool :=
  c == ' ' || c == '\t' || c == '\n' || c == '\r' || c == '\x0b' || c == '\x0c'

/-- ECMAScript digit class. -/
def isDigitC (c : Char) : Bool := '0' ≤ c && c ≤ '9'

/-- Character class of the two quote characters. -/
def quoteCls : Reg := .cls (fun c => c == '"' || c == Char.ofNat 39)

/-- Sequence a list of regexes with a separator regex between neighbours,
mirroring Array.prototype.join on pattern fragments. -/
def joinSeqList (sep : Reg) : List Reg → Reg
  | [] => .eps
  | [r] => r
  | r :: rest => .seq r (.seq sep (joinSeqList sep rest))

/-- Splitting on a single-character separator, as JavaScript
String.prototype.split with a one-character separator behaves (an empty
input yields one empty piece). -/
def splitOnCharAux (sep : Char) : List Char → List Char → List (List Char)
  | [], acc => [acc.reverse]
  | c :: rest, acc =>
    if c = sep then acc.reverse :: splitOnCharAux sep rest []
    else splitOnCharAux sep rest (c :: acc)

/-- String form of splitOnCharAux. -/
def splitOnSep (s : String) (sep : Char) : List String :=
  (splitOnCharAux sep s.data []).map String.mk

/-- Substring test at the head of a list. -/
def startsWithList : List Char → List Char → Bool
  | _, [] => true
  | [], _ :: _ => false
  | h :: hs, n :: ns => h == n && startsWithList hs ns

/-- String.startsWith over the character list. -/
def strStartsWith (s pre : String) : Bool := startsWithList s.data pre.data

/-- String.endsWith over the character list. -/
def strEndsWith (s suf : String) : Bool :=
  startsWithList s.data.reverse suf.data.reverse

/-- Node path.normalize restricted to posix separators, re-joined with the
default separator, as the source normalize does (part_001 lines 72 to 75).
Duplicate separators and dot segments are collapsed; a leading slash and a
trailing slash are preserved. -/
def normStep (stack : List String) (seg : String) : List String :=
  if seg = "" || seg = "." then stack
  else if seg = ".." then
    match stack with
    | [] => [".."]
    | s :: rest => if s = ".." then ".." :: s :: rest else rest
  else seg :: stack

/-- Node path.normalize model over posix paths (see normStep). -/
def normalizePath (p : String) : String :=
  let segs := splitOnSep p (Char.ofNat 47)
  let core := (segs.foldl normStep []).reverse
  let body := String.intercalate "/" core
  let withRoot :=
    if strStartsWith p "/" then "/" ++ body
    else if body = "" then "." else body
  if strEndsWith p "/" && p.data.length > 1 && !(strEndsWith withRoot "/") then
    withRoot ++ "/"
  else withRoot

/-- Prefix capture group of generateLocalPathReg (part_001 line 106): one of
the opening parenthesis, equals sign or plus sign, optional whitespace, then
an optional quote. -/
def refPreReg : Reg :=
  .group 1 (.seq (.cls (fun c => c == '(' || c == '=' || c == '+'))
    (.seq (.star (.cls isSpaceJS)) (.opt quoteCls)))

/-- Pattern piece for one path segment (generateLocalPathStr, part_001 lines
85 to 97): the last segment is inserted verbatim, every earlier segment is
made optional, wrapped in capture group `gi`, and allowed an optional leading
escaped dot. -/
def partPiece (gi : Nat) (isLast : Bool) (part : String) : Reg :=
  if isLast then jsRawReg part
  else .seq (.opt (.lit '.')) (.opt (.group gi (jsRawReg part)))

/-- Body of the local path pattern: the segment pieces joined by an optional
escaped separator (generateLocalPathStr, part_001 line 96). -/
def generateLocalPathBody (localPath : String) : Reg :=
  let parts := splitOnSep localPath (Char.ofNat 47)
  let n := parts.length
  joinSeqList (.opt (.lit '/'))
    (parts.mapIdx (fun i part => partPiece (i + 2) (i + 1 == n) part))

/-- The full local path regex (generateLocalPathReg, part_001 lines 104 to
110): the prefix capture group followed by the path body, global flag. -/
def generateLocalPathReg (localPath : String) : Reg :=
  .seq refPreReg (generateLocalPathBody localPath)

/-- Prefix capture group of handlePublicPath (part_001 line 57): opening
parenthesis or equals sign, then an optional quote (no plus, no whitespace). -/
def pubPreReg : Reg :=
  .group 1 (.seq (.cls (fun c => c == '(' || c == '=')) (.opt quoteCls))

/-- One public path segment as compiled by handlePublicPath (part_001 lines
45 to 55): in a segment containing a dot every dot is escaped, so the whole
segment matches literally; a segment without dots contains no metacharacter
and also matches literally. -/
def publicPathPartReg (part : String) : Reg :=
  if part.data.contains '.' then litStrReg part else jsRawReg part

/-- The public path stripping regex (handlePublicPath, part_001 lines 42 to
58): the prefix group, then the nonempty path segments joined by an escaped
separator.  Note that the split and filter drop the leading and trailing
separators of the configured public path from the pattern. -/
def handlePublicPathReg (publicPath : String) : Reg :=
  let segs := (splitOnSep publicPath (Char.ofNat 47)).filter (fun s => s ≠ "")
  .seq pubPreReg (joinSeqList (.lit '/') (segs.map publicPathPartReg))

/-- handlePublicPath (part_001 lines 40 to 60): replace every match by its
captured prefix alone, deleting the matched path text. -/
def handlePublicPath (publicPath : String) (content : String) : String :=
  replaceAll (handlePublicPathReg publicPath)
    (fun _ caps => (capGet caps 1).getD "") content

/-- The default replaceFn of simpleReplace (part_001 line 125): the identity
on the content, ignoring the path argument. -/
def idReplaceFn : String → String → String := fun c _ => c

/-- One step of the savePair reduce (part_001 lines 130 to 139): normalize
the local path, build its regex, apply replaceFn to the running content and
then replace every occurrence by the captured prefix followed by the cdn
path. -/
def applyOnePair (srcPath : String) (replaceFn : String → String → String)
    (last : String) (pair : String × String) : String :=
  let localPath := normalizePath pair.1
  let cdnPath := pair.2
  replaceAll (generateLocalPathReg localPath)
    (fun _ caps => (capGet caps 1).getD "" ++ cdnPath)
    (replaceFn last srcPath)

/-- The content computed by simpleReplace before the write decision
(part_001 lines 128 to 140): the reduce of applyOnePair over the pair list,
starting from the source file content. -/
def savePairContent (srcFile srcPath : String)
    (replaceFn : String → String → String)
    (pairs : List (String × String)) : String :=
  pairs.foldl (applyOnePair srcPath replaceFn) srcFile

/-- simpleReplace including its write decision (part_001 lines 141 to 147):
returns the rewritten content together with whether the file is written,
which happens when the destination does not exist, or copyWhenUntouched
(forceWrite) is set, or the content differs from the source file. -/
def savePairRun (srcFile srcPath : String)
    (replaceFn : String → String → String)
    (pairs : List (String × String))
    (distExists copyWhenUntouched : Bool) : String × Bool :=
  let ret := savePairContent srcFile srcPath replaceFn pairs
  (ret, !distExists || copyWhenUntouched || (ret != srcFile))

/-- A chunk of the build manifest: id (object keys are strings in JS), an
optional name, the rendered hash, and for webpack 4 the javascript content
hash. -/
structure Chunk where
  id : String
  name : Option String
  renderedHash : String
  contentHash : Option String
deriving DecidableEq

/-- JavaScript object assignment last[id] = v on a string-keyed map modelled
as an insertion-ordered association list: an existing key is overwritten in
place, a new key is appended. -/
def setAssoc (l : List (String × String)) (k v : String) : List (String × String) :=
  if l.any (fun p => p.1 = k) then
    l.map (fun p => if p.1 = k then (k, v) else p)
  else l ++ [(k, v)]

/-- The bare build hash placeholder test of gatherChunks (part_001 line 229). -/
def hashPlaceholderReg : Reg :=
  .seq (litStrReg "[hash")
    (.seq (.opt (.group 1 (.seq (.lit ':') (.plusG (.cls isDigitC))))) (.lit ']'))

/-- Error message thrown by gatherChunks on a bare hash placeholder
(part_001 lines 230 to 232). -/
def hashErrMsg : String :=
  "[webpack-upload-plugin]: Do NOT use [hash] as output filename! Use [chunkhash] or [contenthash] instead"

/-- The name placeholder regex of gatherChunks (part_001 line 248). -/
def nameReg : Reg := litStrReg "[name]"

/-- The id placeholder regex of gatherChunks (part_001 line 249). -/
def idReg : Reg := litStrReg "[id]"

/-- The chunkhash placeholder regex with optional length (part_001 line 250). -/
def chunkhashReg : Reg :=
  .seq (litStrReg "[chunkhash")
    (.seq (.opt (.group 1 (.seq (.lit ':') (.plusG (.cls isDigitC))))) (.lit ']'))

/-- The contenthash placeholder regex with optional length (part_001 line 251). -/
def contenthashReg : Reg :=
  .seq (litStrReg "[contenthash")
    (.seq (.opt (.group 1 (.seq (.lit ':') (.plusG (.cls isDigitC))))) (.lit ']'))

/-- JavaScript unary plus on a digit string, as used for +len.slice(1). -/
def strToNat (s : String) : Nat :=
  s.data.foldl (fun a c => a * 10 + (c.toNat - 48)) 0

/-- The handleLen closure of gatherChunks (part_001 lines 236 to 241): given
the hash source, the full placeholder match and the optional length capture,
return the hash truncated to the requested length when the capture
participated, and the match itself (leaving the placeholder in place)
otherwise. -/
def handleLen (source m : String) (len : Option String) : String :=
  match len with
  | some l => if l = "" then m else source.take (strToNat (l.drop 1))
  | none => m

/-- The rendered filename of one chunk (part_001 lines 247 to 251): the
template with name, id, chunkhash and contenthash placeholders replaced in
that order; name falls back to the id when the chunk is unnamed or has an
empty name (JS truthiness of name in name-or-id). -/
def renderChunkName (chunkFileName : String) (c : Chunk) : String :=
  let nameVal :=
    match c.name with
    | some n => if n = "" then c.id else n
    | none => c.id
  let s1 := replaceAll nameReg (fun _ _ => nameVal) chunkFileName
  let s2 := replaceAll idReg (fun _ _ => c.id) s1
  let s3 := replaceAll chunkhashReg
    (fun m caps => handleLen c.renderedHash m (capGet caps 1)) s2
  replaceAll contenthashReg
    (fun m caps => handleLen ((c.contentHash).getD c.renderedHash) m (capGet caps 1)) s3

/-- The reduce of gatherChunks (part_001 lines 227 to 254): the bare hash
test is evaluated inside the loop body, once per chunk, and throws; otherwise
the rendered name is recorded under the chunk id. -/
def gatherChunksAux (chunkFileName : String) (last : List (String × String)) :
    List Chunk → Except String (List (String × String))
  | [] => .ok last
  | c :: rest =>
    if regTest hashPlaceholderReg chunkFileName then .error hashErrMsg
    else gatherChunksAux chunkFileName (setAssoc last c.id (renderChunkName chunkFileName c)) rest

/-- gatherChunks (part_001 lines 227 to 254). -/
def gatherChunks (chunks : List Chunk) (chunkFileName : String) :
    Except String (List (String × String)) :=
  gatherChunksAux chunkFileName [] chunks

/-- Minimal JSON string escaping (quote and backslash); the urls appearing
here contain neither. -/
def jsonEscape (s : String) : String :=
  String.mk (s.data.foldr
    (fun c acc => if c = '"' || c = '\\' then '\\' :: c :: acc else c :: acc) [])

/-- JSON.stringify of a string-keyed string-valued object in insertion
order. -/
def jsonStringify (m : List (String × String)) : String :=
  "\x7b" ++
    String.intercalate ","
      (m.map (fun p => "\"" ++ jsonEscape p.1 ++ "\":\"" ++ jsonEscape p.2 ++ "\"")) ++
  "\x7d"

/-- The script dispatch regex getScriptRegExp (part_001 lines 13 to 14): the
loader namespace public path, optional whitespace, a plus sign, a greedy run
up to the opening bracket, the captured id expression, the closing bracket, a
lazy run, the literal .js, a quote and an optional semicolon. -/
def getScriptRegExp : Reg :=
  .seq (litStrReg "__webpack_require__.p")
  (.seq (.opt (.cls isSpaceJS))
  (.seq (.lit '+')
  (.seq (.plusG (.cls (fun c => !(c == '['))))
  (.seq (.lit '[')
  (.seq (.group 1 (.plusG (.cls (fun c => !(isSpaceJS c)))))
  (.seq (.lit ']')
  (.seq (.plusL (.cls (fun _ => true)))
  (.seq (litStrReg ".js")
  (.seq quoteCls (.opt (.lit ';')))))))))))

/-- The public path assignment regex PUBLIC_PATH_MATCH (part_001 line 12). -/
def publicPathMatchReg : Reg :=
  .seq (litStrReg "__webpack_require__.p")
  (.seq (.opt (.cls isSpaceJS))
  (.seq (.lit '=')
  (.seq (.opt (.cls isSpaceJS))
  (.seq (.group 1 (.plusG (.cls (fun c => !(c == ';'))))) (.lit ';')))))

/-- The per-file content transform of updateScriptSrc (part_001 lines 285 to
298): when the dispatch pattern tests on the content, replace it by the JSON
encoded chunk cdn map indexed by the captured id expression followed by a
semicolon; when the public path assignment tests on the original content,
replace it in the updated content by an assignment of the empty string. -/
def updateScriptContent (content : String) (chunkCdnMap : List (String × String)) : String :=
  let c1 :=
    if regTest getScriptRegExp content then
      replaceAll getScriptRegExp
        (fun _ caps => jsonStringify chunkCdnMap ++ "[" ++ (capGet caps 1).getD "" ++ "];")
        content
    else content
  if regTest publicPathMatchReg content then
    replaceAll publicPathMatchReg (fun _ _ => "__webpack_require__.p = \"\";") c1
  else c1

/-- updateScriptSrc (part_001 lines 280 to 301) over files given as pairs of
path and content; the second component of the result is the written content,
or none when the file is not written at all.  When the chunk cdn map is
empty the function returns before touching any file; otherwise every given
file is written back (with its transformed content, which may be unchanged
text). -/
def updateScriptSrc (files : List (String × String))
    (chunkCdnMap : List (String × String)) : List (String × Option String) :=
  if chunkCdnMap.length = 0 then files.map (fun f => (f.1, none))
  else files.map (fun f => (f.1, some (updateScriptContent f.2 chunkCdnMap)))

/-- JavaScript key.indexOf(sub) > -1 on lists. -/
def containsSubList : List Char → List Char → Bool
  | [], nd => nd.isEmpty
  | h :: hs, nd => startsWithList (h :: hs) nd || containsSubList hs nd

/-- JavaScript key.indexOf(sub) > -1. -/
def containsSub (hay needle : String) : Bool :=
  containsSubList hay.data needle.data

/-- The reduce of updateCssLoad building cssChunkIdCdnMap (part_001 lines 324
to 331): for each recovered (chunkId, href) pair, look for the first local
stylesheet path containing the href and record its cdn url under the chunk
id; pairs with no hit are skipped. -/
def buildCssChunkIdCdnMap (hrefArr : List (String × String))
    (cssMap : List (String × String)) : List (String × String) :=
  let keys := cssMap.map Prod.fst
  hrefArr.foldl (fun last pr =>
    match keys.findIdx? (fun key => containsSub key pr.2) with
    | none => last
    | some i => setAssoc last pr.1 (cssMap.getD i ("", "")).2) []

/-- The replacement decision of the updateCssLoad callback (part_001 lines
332 to 337): when the recovered map is empty the original href statement is
returned unchanged, otherwise the statement is replaced by an assignment
from the JSON encoded map indexed by chunkId.  The recovery of hrefArr from
the embedded script text happens through dynamic evaluation (new Function)
in the source and is taken here as an input. -/
def cssHrefReplacement (hrefMatch : String) (hrefArr cssMap : List (String × String)) : String :=
  let m := buildCssChunkIdCdnMap hrefArr cssMap
  if m.isEmpty then hrefMatch
  else "var href = " ++ jsonStringify m ++ "[chunkId];"

/-- Phase sequencing of the done handler (UploadPlugin apply, part_001 lines
460 to 689), reduced to the order of the chunk map construction relative to
the upload batches: gatherChunks runs at line 519, before the first upload
call at line 610; on its error the handler jumps to the catch block with no
upload issued.  The first component lists the upload batches issued in
order, the second the error, if any.  Content rewriting between batches does
not matter for this ordering and is omitted. -/
def donePhases (chunks : List Chunk) (chunkFileName : String)
    (imgFontArr chunkArrWAbs cssArr commonChunksWAbs manifestList : List String) :
    List (List String) × Option String :=
  match gatherChunks chunks chunkFileName with
  | .error e => ([], some e)
  | .ok _ =>
    ([imgFontArr, chunkArrWAbs, cssArr] ++
      (if commonChunksWAbs.isEmpty then [] else [commonChunksWAbs]) ++
      [manifestList], none)

/-- Concatenation of the raw text of a segment list. -/
def segsConcat : List Seg → List Char
  | [] => []
  | Sum.inl cs :: rest => cs ++ segsConcat rest
  | Sum.inr (m, _) :: rest => m ++ segsConcat rest

theorem strEqOfData (a b : String) (h : a.data = b.data) : a = b := by
  cases a; cases b; exact congrArg String.mk h

theorem dataAppendStr (a b : String) : (a ++ b).data = a.data ++ b.data := by
  cases a; cases b; rfl

theorem mkDataStr (l : List Char) : (String.mk l).data = l := rfl

theorem renderSegs_eq_segsConcat (f : String → Caps → String) :
    ∀ segs : List Seg, segs.all isInlSeg = true → renderSegs f segs = segsConcat segs
  | [], _ => rfl
  | Sum.inl cs :: rest, h => by
    simp only [List.all_cons, Bool.and_eq_true] at h
    simp [renderSegs, segsConcat, renderSegs_eq_segsConcat f rest h.2]
  | Sum.inr _ :: _, h => by
    simp [List.all_cons, isInlSeg] at h

theorem prependLit_segsConcat (c : Char) :
    ∀ segs : List Seg, segsConcat (prependLit c segs) = c :: segsConcat segs
  | [] => rfl
  | Sum.inl _ :: _ => rfl
  | Sum.inr _ :: _ => rfl

theorem prependLit_all (c : Char) :
    ∀ segs : List Seg, (prependLit c segs).all isInlSeg = segs.all isInlSeg
  | [] => by simp [prependLit, isInlSeg]
  | Sum.inl _ :: _ => by simp [prependLit, isInlSeg]
  | Sum.inr _ :: _ => by simp [prependLit, isInlSeg]

theorem scanSplit_segsConcat_of_all_inl (r : Reg) :
    ∀ (fuel : Nat) (s : List Char),
      (scanSplit fuel r s).all isInlSeg = true → segsConcat (scanSplit fuel r s) = s
  | 0, s, _ => by simp [scanSplit, segsConcat]
  | fuel + 1, [], _ => by simp [scanSplit, segsConcat]
  | fuel + 1, c :: rest, h => by
    cases htm : tryMatch r (c :: rest) with
    | none =>
      simp only [scanSplit, htm] at h ⊢
      rw [prependLit_all] at h
      rw [prependLit_segsConcat, scanSplit_segsConcat_of_all_inl r fuel rest h]
    | some m =>
      obtain ⟨mm, caps, rest'⟩ := m
      simp only [scanSplit, htm] at h
      by_cases he : mm.isEmpty <;> simp [he, isInlSeg] at h

theorem replaceAll_of_noMatch (r : Reg) (f : String → Caps → String) (s : String)
    (h : regNoMatch r s = true) : replaceAll r f s = s := by
  unfold regNoMatch at h
  unfold replaceAll
  rw [renderSegs_eq_segsConcat f _ h,
    scanSplit_segsConcat_of_all_inl r _ _ h]

theorem savePairContent_of_noMatch (src srcPath : String) :
    ∀ pairs : List (String × String),
      (∀ p ∈ pairs, regNoMatch (generateLocalPathReg (normalizePath p.1)) src = true) →
      savePairContent src srcPath idReplaceFn pairs = src
  | [], _ => rfl
  | p :: ps, h => by
    have h1 : applyOnePair srcPath idReplaceFn src p = src := by
      unfold applyOnePair idReplaceFn
      exact replaceAll_of_noMatch _ _ _ (h p (List.mem_cons_self p ps))
    have h2 := savePairContent_of_noMatch src srcPath ps
      (fun q hq => h q (List.mem_cons_of_mem p hq))
    calc savePairContent src srcPath idReplaceFn (p :: ps)
        = savePairContent (applyOnePair srcPath idReplaceFn src p) srcPath idReplaceFn ps := rfl
      _ = savePairContent src srcPath idReplaceFn ps := by rw [h1]
      _ = src := h2

/-- Claim C1 (amended): for every replacement string R, the pattern built
from the local path img/a.png replaces every occurrence of the reference in
its exact form, in its form with a dot attached directly to a retained
segment, and in its directory-prefix-omitted form, each preceded by a
structural prefix token from the opening parenthesis, equals sign or plus
sign with an optional quote; the captured prefix is preserved and all
occurrences are replaced.  The fully dot-relative form with a dot, a slash
and then the complete path is NOT matched for a two-segment path (see the
counterexample), which is the one correction to the claim. -/
theorem claim1_reference_forms (R : String) :
    savePairContent "url(img/a.png) a=\"a.png\" b=.img/a.png;" "f.css" idReplaceFn
      [("img/a.png", R)] =
    "url(" ++ R ++ ") a=\"" ++ R ++ "\" b=" ++ R ++ ";" := by
  have hseg : scanSplit (("url(img/a.png) a=\"a.png\" b=.img/a.png;".data).length + 1)
      (generateLocalPathReg (normalizePath "img/a.png"))
      ("url(img/a.png) a=\"a.png\" b=.img/a.png;".data) =
      [Sum.inl ['u', 'r', 'l'],
       Sum.inr (['(', 'i', 'm', 'g', '/', 'a', '.', 'p', 'n', 'g'],
         [(2, ['i', 'm', 'g']), (1, ['('])]),
       Sum.inl [')', ' ', 'a'],
       Sum.inr (['=', '"', 'a', '.', 'p', 'n', 'g'], [(1, ['=', '"'])]),
       Sum.inl ['"', ' ', 'b'],
       Sum.inr (['=', '.', 'i', 'm', 'g', '/', 'a', '.', 'p', 'n', 'g'],
         [(2, ['i', 'm', 'g']), (1, ['='])]),
       Sum.inl [';']] := by decide
  have hc1 : (capGet [(2, ['i', 'm', 'g']), (1, ['('])] 1).getD "" = "(" := by decide
  have hc2 : (capGet [(1, ['=', '"'])] 1).getD "" = "=\"" := by decide
  have hc3 : (capGet [(2, ['i', 'm', 'g']), (1, ['='])] 1).getD "" = "=" := by decide
  have hd1 : "url(".data = ['u', 'r', 'l', '('] := by decide
  have hd2 : ") a=\"".data = [')', ' ', 'a', '=', '"'] := by decide
  have hd3 : "\" b=".data = ['"', ' ', 'b', '='] := by decide
  have hd4 : ";".data = [';'] := by decide
  have hd5 : "(".data = ['('] := by decide
  have hd6 : "=\"".data = ['=', '"'] := by decide
  have hd7 : "=".data = ['='] := by decide
  simp only [savePairContent, List.foldl, applyOnePair, idReplaceFn, replaceAll]
  rw [hseg]
  simp only [renderSegs]
  simp only [hc1, hc2, hc3]
  apply strEqOfData
  simp only [mkDataStr, dataAppendStr, hd1, hd2, hd3, hd4, hd5, hd6, hd7]
  simp [List.append_assoc]

/-- Claim C1 counterexample: the claim promises replacement of the
dot-relative form of the reference, but for the two-segment local path
img/a.png the built pattern has no optional separator between the leading
optional dot and the first segment, so the occurrence ./img/a.png after a
prefix token is not matched at all and the text is returned unchanged. -/
theorem claim1_dot_relative_counterexample :
    savePairContent "x=\"./img/a.png\"" "f.css" idReplaceFn
      [("img/a.png", "https://cdn/a.png")] = "x=\"./img/a.png\"" ∧
    ("x=\"./img/a.png\"" : String) ≠ "x=\"https://cdn/a.png\"" :=
  ⟨by decide, by decide⟩

/-- Claim C2 (amended): for every NON-EMPTY chunk list and every filename
template containing a bare [hash] placeholder (with or without a length),
building the chunk map throws the configuration error, and in the done
handler this failure occurs before any upload batch is issued. -/
theorem claim2_bare_hash_nonempty (chunks : List Chunk) (template : String)
    (imgFontArr chunkArrWAbs cssArr commonChunksWAbs manifestList : List String)
    (hne : chunks ≠ [])
    (ht : regTest hashPlaceholderReg template = true) :
    gatherChunks chunks template = .error hashErrMsg ∧
    donePhases chunks template imgFontArr chunkArrWAbs cssArr commonChunksWAbs
      manifestList = ([], some hashErrMsg) := by
  obtain ⟨c, cs, rfl⟩ : ∃ c cs, chunks = c :: cs := by
    cases chunks with
    | nil => exact absurd rfl hne
    | cons c cs => exact ⟨c, cs, rfl⟩
  have hg : gatherChunks (c :: cs) template = .error hashErrMsg := by
    simp [gatherChunks, gatherChunksAux, ht]
  exact ⟨hg, by simp [donePhases, hg]⟩

/-- Witness for claim C2 at a concrete chunk and template. -/
theorem claim2_witness :
    ([⟨"1", none, "h", none⟩] : List Chunk) ≠ [] ∧
    regTest hashPlaceholderReg "[hash].js" = true ∧
    gatherChunks [⟨"1", none, "h", none⟩] "[hash].js" = .error hashErrMsg ∧
    donePhases [⟨"1", none, "h", none⟩] "[hash].js" [] [] [] [] []
      = ([], some hashErrMsg) := by
  refine ⟨by decide, by decide, ?_⟩
  exact claim2_bare_hash_nonempty _ _ _ _ _ _ _ (by decide) (by decide)

/-- Claim C2 counterexample: with an EMPTY chunk list the bare hash test is
never executed, because it sits inside the reduce body which never runs, so
no configuration error is thrown and the empty map is returned. -/
theorem claim2_empty_chunks_counterexample :
    gatherChunks ([] : List Chunk) "[hash].js" = .ok [] ∧
    (Except.ok [] : Except String (List (String × String))) ≠ .error hashErrMsg :=
  ⟨rfl, by decide⟩

/-- Claim C3: scenario A holds, the template app.[name].[chunkhash:8].js
with the single chunk of id 1, name app and rendered hash abcdef1234 yields
the mapping 1 to app.app.abcdef12.js; a participating length capture :N
truncates the hash to exactly its first N characters; [name] falls back to
the id when the chunk is unnamed.  The last conjunct evaluates the code at
the failing input of the claim: the :N-less placeholder form is NOT replaced
by the full hash, handleLen returns the match itself and the literal text
[chunkhash] stays in the rendered name. -/
theorem claim3_chunk_naming :
    gatherChunks [⟨"1", some "app", "abcdef1234", none⟩] "app.[name].[chunkhash:8].js"
      = .ok [("1", "app.app.abcdef12.js")] ∧
    (∀ (source m len : String) (n : Nat), len ≠ "" → strToNat (len.drop 1) = n →
      handleLen source m (some len) = source.take n) ∧
    gatherChunks [⟨"7", none, "ffff", none⟩] "[name].js" = .ok [("7", "7.js")] ∧
    gatherChunks [⟨"1", some "app", "abcdef1234", none⟩] "app.[chunkhash].js"
      = .ok [("1", "app.[chunkhash].js")] := by
  refine ⟨by decide, ?_, by decide, by decide⟩
  intro source m len n hne hn
  simp [handleLen, hne, hn]

/-- Witness for claim C3 truncation at the scenario hash and length. -/
theorem claim3_witness :
    handleLen "abcdef1234" "[chunkhash:8]" (some ":8") = "abcdef12" :=
  (claim3_chunk_naming.2.1 "abcdef1234" "[chunkhash:8]" ":8" 8 (by decide)
    (by decide)).trans (by decide)

/-- Claim C4 counterexample: replaceFn is applied once per pair inside the
reduce, not once overall before the substitutions: with two pairs an
appending transform runs twice, giving xTT, while a single up-front
application would give xT. -/
theorem claim4_transform_counterexample :
    savePairContent "x" "f.css" (fun c _ => c ++ "T")
      [("a/b.png", "u"), ("c/d.png", "v")] = "xTT" ∧ ("xTT" : String) ≠ "xT" :=
  ⟨by decide, by decide⟩

/-- Claim C4 (amended): the caller-supplied transform is applied once per
(localPath, newValue) pair, each time just before that pair substitution, so
the number of pairs does determine how many times it runs: with an empty
pair list it never runs, and with two pairs an appending transform is
applied twice. -/
theorem claim4_transform_per_pair :
    (∀ (src srcPath : String) (f : String → String → String),
      savePairContent src srcPath f [] = src) ∧
    savePairContent "x" "f.css" (fun c _ => c ++ "T")
      [("a/b.png", "u"), ("c/d.png", "v")] = "xTT" :=
  ⟨fun _ _ _ => rfl, by decide⟩

/-- Claim C5 fails on the code: handlePublicPath builds its pattern from the
public path split on the separator with empty segments dropped, so the
pattern for /static/ is the prefix group followed by the bare text static,
which never matches the slash-prefixed reference.  The scenario content
src="/static/a.png" is returned completely unchanged instead of being
stripped to src="a.png" (first conjunct); a reference without the leading
slash loses only the segment text and keeps the trailing separator (second
conjunct). -/
theorem claim5_public_path_strip :
    handlePublicPath "/static/" "src=\"/static/a.png\"" = "src=\"/static/a.png\"" ∧
    handlePublicPath "/static/" "src=\"static/a.png\"" = "src=\"/a.png\"" :=
  ⟨by decide, by decide⟩

/-- Claim C6 counterexample: the replacement template of updateScriptSrc is
the JSON-encoded map directly followed by the bracketed capture, without the
wrapping parentheses the claim states, so the rewritten text differs from
the claimed one. -/
theorem claim6_parens_counterexample :
    updateScriptContent "var s = __webpack_require__.p + map[id] + \".js\";"
      [("1", "https://cdn/chunk1.js")]
      = "var s = \x7b\"1\":\"https://cdn/chunk1.js\"\x7d[id];" ∧
    ("var s = \x7b\"1\":\"https://cdn/chunk1.js\"\x7d[id];" : String) ≠
      "var s = (\x7b\"1\":\"https://cdn/chunk1.js\"\x7d)[id];" :=
  ⟨by decide, by decide⟩

/-- Claim C6 (amended): for an entry script containing the chunk dispatch
expression and the one-entry chunk-id-to-url map, the whole lookup
expression including the loader-namespace public-path prefix is replaced by
the JSON-encoded map indexed by the captured id expression followed by a
semicolon, with no wrapping parentheses around the JSON object. -/
theorem claim6_chunk_table_rewrite :
    updateScriptSrc
      [("entry.js", "var s = __webpack_require__.p + map[id] + \".js\";")]
      [("1", "https://cdn/chunk1.js")]
      = [("entry.js", some "var s = \x7b\"1\":\"https://cdn/chunk1.js\"\x7d[id];")] := by
  decide

/-- Claim C7 (amended): the href-resolution statement is left untouched
exactly when NO chunk id resolves against the known stylesheet remote urls,
that is when the recovered map is empty; a partially resolved map is still
written (see the counterexample). -/
theorem claim7_reject_only_when_none (hrefMatch : String)
    (hrefArr cssMap : List (String × String))
    (h : buildCssChunkIdCdnMap hrefArr cssMap = []) :
    cssHrefReplacement hrefMatch hrefArr cssMap = hrefMatch := by
  simp [cssHrefReplacement, h]

/-- Witness for claim C7 at a concrete unresolvable href list. -/
theorem claim7_witness :
    cssHrefReplacement "var href = cssChunks[chunkId];" [("1", "b.css")]
      [("/x/a.css", "https://cdn/a.css")] = "var href = cssChunks[chunkId];" :=
  claim7_reject_only_when_none _ _ _ (by decide)

/-- Claim C7 counterexample: with two recovered hrefs of which only one
resolves against the known stylesheet urls, the statement is rewritten with
a partial map listing only that one stylesheet, instead of being left
untouched as the claim states. -/
theorem claim7_partial_map_counterexample :
    cssHrefReplacement "var href = cssChunks[chunkId];"
      [("0", "a.css"), ("1", "b.css")] [("/x/a.css", "https://cdn/a.css")]
      = "var href = \x7b\"0\":\"https://cdn/a.css\"\x7d[chunkId];" ∧
    ("var href = \x7b\"0\":\"https://cdn/a.css\"\x7d[chunkId];" : String) ≠
      "var href = cssChunks[chunkId];" :=
  ⟨by decide, by decide⟩

/-- Claim C8: applying the rewriter with the identity transform to content
in which no pair pattern matches returns the source content unchanged, and
with forceWrite false the file is written exactly when the destination does
not exist; in general the write decision is: destination missing, or
forceWrite set, or content changed. -/
theorem claim8_write_policy (src srcPath : String) (pairs : List (String × String))
    (dE : Bool)
    (h : ∀ p ∈ pairs, regNoMatch (generateLocalPathReg (normalizePath p.1)) src = true) :
    savePairRun src srcPath idReplaceFn pairs dE false = (src, !dE) ∧
    (∀ (f : String → String → String) (ps : List (String × String)) (dE2 fW : Bool),
      (savePairRun src srcPath f ps dE2 fW).2 =
        (!dE2 || fW || (savePairContent src srcPath f ps != src))) := by
  have hc := savePairContent_of_noMatch src srcPath pairs h
  refine ⟨?_, fun f ps dE2 fW => rfl⟩
  simp [savePairRun, hc]

/-- Witness for claim C8 at concrete content, pair list and an existing
destination: no write occurs. -/
theorem claim8_witness :
    savePairRun "hello" "f.css" idReplaceFn [("img/a.png", "u")] true false
      = ("hello", false) :=
  (claim8_write_policy "hello" "f.css" [("img/a.png", "u")] true (by decide)).1

/-- Claim C9: with an empty chunk-id-to-url map updateScriptSrc leaves every
given script file completely untouched, writing nothing; with a non-empty
map the dispatch expression is patched and the public-path assignment
statement is rewritten to assign the empty string. -/
theorem claim9_frame_and_public_path :
    (∀ files : List (String × String),
      updateScriptSrc files [] = files.map (fun f => (f.1, (none : Option String)))) ∧
    updateScriptSrc
      [("entry.js",
        "__webpack_require__.p = \"/a/\";\nvar s = __webpack_require__.p + map[id] + \".js\";")]
      [("1", "u")]
      = [("entry.js",
        some "__webpack_require__.p = \"\";\nvar s = \x7b\"1\":\"u\"\x7d[id];")] :=
  ⟨fun _ => rfl, by decide⟩

/-- Claim C10: path segments are interpolated into the pattern without
escaping, so the dot of a.png acts as a wildcard: a text that contains no
occurrence of a.png at all is still altered by the replacement. -/
theorem claim10_dot_wildcard :
    savePairContent "src=\"axpng\"" "f.css" idReplaceFn [("a.png", "u")] = "src=\"u\"" ∧
    containsSub "src=\"axpng\"" "a.png" = false ∧
    ("src=\"u\"" : String) ≠ "src=\"axpng\"" :=
  ⟨by decide, by decide, by decide⟩
